import Mathlib

/-!
Verification of the coordination-fabric specification against the source of
the Milvus control plane (RootCoord, DataCoord, IndexCoord).  The Go source
is shallowly embedded: each Go function relevant to a claim is translated to
a pure Lean function over an explicit state record; fallible calls return
`Except`/`Option`; the replicated key-value store is an association list.
Helpers of the repository that are referenced by the embedded functions but
whose source is not available (the segment-table setters, the index meta
table, the priority queue) are modelled from the specification text and are
marked as such in their doc comments.
-/

namespace Milvus

/-! ## Common protocol types (internal/proto/commonpb, internalpb) -/

/-- Error codes of the uniform RPC status (commonpb.ErrorCode). -/
inductive ErrorCode
  | Success
  | UnexpectedError
  deriving DecidableEq

/-- Uniform RPC status (commonpb.Status). -/
structure Status where
  errorCode : ErrorCode
  reason : String
  deriving DecidableEq

/-- Component state codes (internalpb.StateCode). -/
inductive StateCode
  | Initializing
  | Healthy
  | Abnormal
  deriving DecidableEq

/-- The proto-generated name map internalpb.StateCode_name. -/
def StateCode.name : StateCode → String
  | .Initializing => "Initializing"
  | .Healthy => "Healthy"
  | .Abnormal => "Abnormal"

/-- Segment lifecycle states (commonpb.SegmentState). -/
inductive SegmentState
  | SegmentStateNone
  | NotExist
  | Growing
  | Sealed
  | Flushed
  | Flushing
  | Dropped
  deriving DecidableEq

/-- Rank of a segment state in the order stated by the specification:
Growing < Sealed < Flushing < Flushed < Dropped (the two pseudo states
sort below every live state). -/
def SegmentState.rank : SegmentState → Nat
  | .SegmentStateNone => 0
  | .NotExist => 0
  | .Growing => 1
  | .Sealed => 2
  | .Flushing => 3
  | .Flushed => 4
  | .Dropped => 5

/-- A message-stream position (internalpb.MsgPosition): an opaque message id
and a timestamp.  A Go nil pointer is modelled by `Option`. -/
structure MsgPosition where
  msgID : List Nat
  timestamp : Nat
  deriving DecidableEq

/-- Nil-safe Go getter GetMsgID: a nil position yields an empty id. -/
def getMsgID : Option MsgPosition → List Nat
  | none => []
  | some p => p.msgID

namespace Datacoord

/-! ## DataCoord segment meta (src/internal/datacoord/meta.go) -/

/-- Segment row of the data coordinator (datapb.SegmentInfo), restricted to
the fields read or written by the embedded operations. -/
structure SegmentInfo where
  id : Int
  collectionID : Int
  partitionID : Int
  insertChannel : String
  numOfRows : Int
  state : SegmentState
  dmlPosition : Option MsgPosition
  startPosition : Option MsgPosition
  deriving DecidableEq

/-- Modelled from the spec: the in-memory segment table (type SegmentsInfo,
source file not included) is a map from segment id to segment row; here an
association list keyed by segment id. -/
abbrev SegmentsInfo := List (Int × SegmentInfo)

/-- Lookup of a segment by id (SegmentsInfo.GetSegment). -/
def SegmentsInfo.GetSegment (s : SegmentsInfo) (segmentID : Int) : Option SegmentInfo :=
  match s with
  | [] => none
  | (k, v) :: rest => if k = segmentID then some v else GetSegment rest segmentID

/-- Update the entry of `segmentID` in place when present; a missing id is
left untouched, as in the Go setters which guard with a map lookup. -/
def SegmentsInfo.update (s : SegmentsInfo) (segmentID : Int)
    (f : SegmentInfo → SegmentInfo) : SegmentsInfo :=
  match s with
  | [] => []
  | (k, v) :: rest =>
    if k = segmentID then (k, f v) :: rest else (k, v) :: update rest segmentID f

/-- Modelled from the spec: SegmentsInfo.SetState writes the given state into
the segment row; the segment data model (section 3) lists `state` as a plain
field of the row. -/
def SegmentsInfo.SetState (s : SegmentsInfo) (segmentID : Int) (state : SegmentState) :
    SegmentsInfo :=
  s.update segmentID (fun seg => { seg with state := state })

/-- Modelled from the spec: SegmentsInfo.SetRowCount writes `num_rows`. -/
def SegmentsInfo.SetRowCount (s : SegmentsInfo) (segmentID : Int) (rowCount : Int) :
    SegmentsInfo :=
  s.update segmentID (fun seg => { seg with numOfRows := rowCount })

/-- Modelled from the spec: SegmentsInfo.SetStartPosition writes
`start_position`. -/
def SegmentsInfo.SetStartPosition (s : SegmentsInfo) (segmentID : Int)
    (pos : Option MsgPosition) : SegmentsInfo :=
  s.update segmentID (fun seg => { seg with startPosition := pos })

/-- Modelled from the spec: SegmentsInfo.SetDmlPositino (name as in the
source call sites) writes `dml_position`. -/
def SegmentsInfo.SetDmlPositino (s : SegmentsInfo) (segmentID : Int)
    (pos : Option MsgPosition) : SegmentsInfo :=
  s.update segmentID (fun seg => { seg with dmlPosition := pos })

/-- All segment rows (SegmentsInfo.GetSegments). -/
def SegmentsInfo.GetSegments (s : SegmentsInfo) : List SegmentInfo :=
  s.map (·.2)

/-- A value stored in the reliable KV: either a serialized segment row
(proto text serialization is modelled by storing the row itself) or a raw
binlog payload string. -/
inductive KVValue
  | seg (info : SegmentInfo)
  | raw (value : String)
  deriving DecidableEq

/-- The transactional KV namespace of the data coordinator. -/
abbrev KVStore := List (String × KVValue)

/-- Save one key (kv.TxnKV Save): overwrite-or-insert. -/
def kvSave (kv : KVStore) (key : String) (value : KVValue) : KVStore :=
  match kv with
  | [] => [(key, value)]
  | (k, v) :: rest => if k = key then (k, value) :: rest else (k, v) :: kvSave rest key value

/-- MultiSave (atomic multi-key write) as a fold of single saves. -/
def kvMultiSave (kv : KVStore) (pairs : List (String × KVValue)) : KVStore :=
  match pairs with
  | [] => kv
  | (k, v) :: rest => kvMultiSave (kvSave kv k v) rest

/-- buildSegmentPath: key of a segment row under the meta root. -/
def buildSegmentPath (collectionID partitionID segmentID : Int) : String :=
  "datacoord-meta/s/" ++ toString collectionID ++ "/" ++ toString partitionID ++ "/" ++
    toString segmentID

/-- The meta struct of the data coordinator: the in-memory segment table and
its KV mirror (meta.collections is not needed by the embedded operations). -/
structure meta where
  segments : SegmentsInfo
  kv : KVStore
  deriving DecidableEq

/-- meta.saveSegmentInfo: persist one segment row under its path. -/
def meta.saveSegmentInfo (kv : KVStore) (segment : SegmentInfo) : KVStore :=
  kvSave kv (buildSegmentPath segment.collectionID segment.partitionID segment.id)
    (.seg segment)

/-- meta.SetState: set the state in memory, then persist the row if the
segment exists.  The state is written unconditionally; there is no guard
against moving backward. -/
def meta.SetState (m : meta) (segmentID : Int) (state : SegmentState) : meta :=
  let segs := m.segments.SetState segmentID state
  match segs.GetSegment segmentID with
  | some segInfo => { segments := segs, kv := meta.saveSegmentInfo m.kv segInfo }
  | none => { m with segments := segs }

/-- meta.SetRowCount: set `num_rows` in memory, then persist the row if the
segment exists.  The count is written unconditionally. -/
def meta.SetRowCount (m : meta) (segmentID : Int) (rowCount : Int) : meta :=
  let segs := m.segments.SetRowCount segmentID rowCount
  match segs.GetSegment segmentID with
  | some segInfo => { segments := segs, kv := meta.saveSegmentInfo m.kv segInfo }
  | none => { m with segments := segs }

/-- A reported start position (datapb.SegmentStartPosition). -/
structure SegmentStartPosition where
  segmentID : Int
  startPosition : Option MsgPosition
  deriving DecidableEq

/-- A reported checkpoint (datapb.CheckPoint). -/
structure CheckPoint where
  segmentID : Int
  position : MsgPosition
  numOfRows : Int
  deriving DecidableEq

/-- The start-position pass of SaveBinlogAndCheckPoints: a position whose
incoming MsgID is non-empty is skipped; otherwise, if the segment exists,
its start position is overwritten and the id recorded as modified. -/
def applyStartPositions (segs : SegmentsInfo) (mods : List Int) :
    List SegmentStartPosition → SegmentsInfo × List Int
  | [] => (segs, mods)
  | pos :: rest =>
    if (getMsgID pos.startPosition).length ≠ 0 then
      applyStartPositions segs mods rest
    else
      match segs.GetSegment pos.segmentID with
      | some _ =>
        applyStartPositions (segs.SetStartPosition pos.segmentID pos.startPosition)
          (mods ++ [pos.segmentID]) rest
      | none => applyStartPositions segs mods rest

/-- The checkpoint pass of SaveBinlogAndCheckPoints: a checkpoint for an
existing segment whose stored dml position is present and not older than the
incoming position is skipped; otherwise the dml position and the row count
are overwritten and the id recorded as modified. -/
def applyCheckpoints (segs : SegmentsInfo) (mods : List Int) :
    List CheckPoint → SegmentsInfo × List Int
  | [] => (segs, mods)
  | cp :: rest =>
    match segs.GetSegment cp.segmentID with
    | some segment =>
      match segment.dmlPosition with
      | some d =>
        if d.timestamp ≥ cp.position.timestamp then
          applyCheckpoints segs mods rest
        else
          applyCheckpoints
            ((segs.SetDmlPositino cp.segmentID (some cp.position)).SetRowCount
              cp.segmentID cp.numOfRows)
            (mods ++ [segment.id]) rest
      | none =>
        applyCheckpoints
          ((segs.SetDmlPositino cp.segmentID (some cp.position)).SetRowCount
            cp.segmentID cp.numOfRows)
          (mods ++ [segment.id]) rest
    | none => applyCheckpoints segs mods rest

/-- Collect the KV entries of the modified segments. -/
def modSegmentEntries (segs : SegmentsInfo) : List Int → List (String × KVValue)
  | [] => []
  | id :: rest =>
    match segs.GetSegment id with
    | some segment =>
      (buildSegmentPath segment.collectionID segment.partitionID segment.id, .seg segment)
        :: modSegmentEntries segs rest
    | none => modSegmentEntries segs rest

/-- meta.SaveBinlogAndCheckPoints: atomic update of binlog paths, optional
state move to Flushing, start positions and checkpoints, followed by one
MultiSave transaction. -/
def meta.SaveBinlogAndCheckPoints (m : meta) (segID : Int) (flushed : Bool)
    (binlogs : List (String × String)) (checkpoints : List CheckPoint)
    (startPositions : List SegmentStartPosition) : meta :=
  let kv0 : List (String × KVValue) := binlogs.map (fun p => (p.1, KVValue.raw p.2))
  let segs0 := if flushed then m.segments.SetState segID .Flushing else m.segments
  let (segs1, mods1) := applyStartPositions segs0 [] startPositions
  let (segs2, mods2) := applyCheckpoints segs1 mods1 checkpoints
  let txn := kv0 ++ modSegmentEntries segs2 mods2
  { segments := segs2, kv := kvMultiSave m.kv txn }

/-- meta.GetUnFlushedSegments: the segments whose state is neither Flushing
nor Flushed. -/
def meta.GetUnFlushedSegments (m : meta) : List SegmentInfo :=
  (m.segments.GetSegments).filter
    (fun info => info.state ≠ .Flushing ∧ info.state ≠ .Flushed)

end Datacoord

namespace Rootcoord

/-! ## RootCoord (src/unnamed/part_001, package rootcoord) -/

/-- The decoded body of a stored DDL operation.  In the source the body is a
serialized request; decoding is modelled as already done (only requests that
were themselves serialized by the coordinator are ever stored). -/
structure DdRequest where
  dbName : String
  collectionName : String
  timestamp : Nat
  deriving DecidableEq

/-- DdOperation: the last DDL applied, as type tag plus body. -/
structure DdOperation where
  ddType : String
  body : DdRequest
  deriving DecidableEq

/-- Modelled from the spec: the DDL type tags (constants CreateCollectionDDType,
DropCollectionDDType, CreatePartitionDDType, DropPartitionDDType, whose
defining file is not included); four distinct strings. -/
def CreateCollectionDDType : String := "CreateCollection"

/-- Modelled from the spec: see CreateCollectionDDType. -/
def DropCollectionDDType : String := "DropCollection"

/-- Modelled from the spec: see CreateCollectionDDType. -/
def CreatePartitionDDType : String := "CreatePartition"

/-- Modelled from the spec: see CreateCollectionDDType. -/
def DropPartitionDDType : String := "DropPartition"

/-- Collection metadata visible to the replay path: name and the fixed list
of physical channels. -/
structure CollectionInfo where
  name : String
  physicalChannelNames : List String
  deriving DecidableEq

/-- The observable effects of the replay path: a DDL message published on the
physical channels of a collection, or a proxy cache invalidation. -/
inductive DdEvent
  | publish (ddType : String) (req : DdRequest) (channels : List String)
  | invalidateCache (dbName collectionName : String)
  deriving DecidableEq

/-- The RootCoord state read and written by the replay path.  `ddMsgFlag` is
the value stored under the DDMsgSendPrefix key (`none` models an absent key,
for which the KV load returns an error); `ddOperation` likewise for the
DDOperationPrefix key; `collections` is the collection metadata table. -/
structure CoreState where
  ddMsgFlag : Option String
  ddOperation : Option DdOperation
  collections : List CollectionInfo
  deriving DecidableEq

/-- Modelled from the spec: MetaTable.GetCollectionByName (source file not
included) resolves a collection by name. -/
def CoreState.GetCollectionByName (s : CoreState) (name : String) : Option CollectionInfo :=
  s.collections.find? (fun c => c.name == name)

/-- Core.setDdMsgSendFlag: load the flag; if it already has the requested
value do nothing, otherwise save the new value.  An absent key makes the
load fail and the error is returned. -/
def Core.setDdMsgSendFlag (s : CoreState) (b : Bool) : CoreState × Except String Unit :=
  match s.ddMsgFlag with
  | none => (s, .error "load DdMsg send flag failed")
  | some flag =>
    if (b ∧ flag = "true") ∨ (¬b ∧ flag = "false") then (s, .ok ())
    else if b then ({ s with ddMsgFlag := some "true" }, .ok ())
    else ({ s with ddMsgFlag := some "false" }, .ok ())

/-- The per-type replay step shared by the four DDL cases of reSendDdMsg:
resolve the collection by name, publish on its physical channels (publishing
is modelled as always acknowledged), for the three invalidating types also
broadcast a cache invalidation, then set the sent flag to true. -/
def Core.replayDdCase (s : CoreState) (ddOp : DdOperation) (invalidate : Bool) :
    CoreState × List DdEvent × Except String Unit :=
  match s.GetCollectionByName ddOp.body.collectionName with
  | none => (s, [], .error "can not find collection")
  | some collInfo =>
    let evs := [DdEvent.publish ddOp.ddType ddOp.body collInfo.physicalChannelNames]
    let evs := if invalidate then
        evs ++ [DdEvent.invalidateCache ddOp.body.dbName ddOp.body.collectionName]
      else evs
    let (s1, r) := Core.setDdMsgSendFlag s true
    (s1, evs, r)

/-- Core.reSendDdMsg: the startup replay.  If the flag load fails (absent
key) or the flag is the string true, nothing happens; likewise when the
stored DdOperation is absent.  Otherwise the stored operation is decoded,
dispatched on its type tag, re-published, and the flag is set to true. -/
def Core.reSendDdMsg (s : CoreState) : CoreState × List DdEvent × Except String Unit :=
  match s.ddMsgFlag with
  | none => (s, [], .ok ())
  | some flag =>
    if flag = "true" then (s, [], .ok ())
    else
      match s.ddOperation with
      | none => (s, [], .ok ())
      | some ddOp =>
        if ddOp.ddType = CreateCollectionDDType then
          Core.replayDdCase s ddOp false
        else if ddOp.ddType = DropCollectionDDType then
          Core.replayDdCase s ddOp true
        else if ddOp.ddType = CreatePartitionDDType then
          Core.replayDdCase s ddOp true
        else if ddOp.ddType = DropPartitionDDType then
          Core.replayDdCase s ddOp true
        else
          (s, [], .error ("Invalid DdOperation " ++ ddOp.ddType))

/-- Response of Core.AllocTimestamp (rootcoordpb.AllocTimestampResponse). -/
structure AllocTimestampResponse where
  status : Status
  timestamp : Nat
  count : Nat
  deriving DecidableEq

/-- Core.AllocTimestamp: refuse with UnexpectedError and a reason naming the
state when the state code is not Healthy; otherwise consult the timestamp
allocator (its outcome is the `tso` argument) and answer. -/
def Core.AllocTimestamp (code : StateCode) (tso : Except String Nat) (count : Nat) :
    AllocTimestampResponse :=
  if code ≠ .Healthy then
    { status := { errorCode := .UnexpectedError,
                  reason := "state code = " ++ StateCode.name code },
      timestamp := 0, count := 0 }
  else
    match tso with
    | .error e =>
      { status := { errorCode := .UnexpectedError, reason := "AllocTimestamp failed: " ++ e },
        timestamp := 0, count := 0 }
    | .ok ts =>
      { status := { errorCode := .Success, reason := "" }, timestamp := ts, count := count }

end Rootcoord

namespace Indexcoord

/-! ## IndexCoord (src/unnamed/part_000, package indexcoord) -/

/-- indexpb.BuildIndexRequest, restricted to the fingerprint fields plus the
caller-supplied id fields. -/
structure BuildIndexRequest where
  indexBuildID : Int
  indexName : String
  indexID : Int
  dataPaths : List String
  typeParams : List (String × String)
  indexParams : List (String × String)
  deriving DecidableEq

/-- commonpb.IndexState. -/
inductive IndexState
  | IndexStateNone
  | Unissued
  | InProgress
  | Finished
  | Failed
  deriving DecidableEq

/-- One row of the index meta table (indexpb.IndexMeta). -/
structure IndexMeta where
  indexBuildID : Int
  state : IndexState
  req : BuildIndexRequest
  version : Int
  markDeleted : Bool
  nodeID : Int
  deriving DecidableEq

/-- The persistent meta table of build tasks. -/
structure MetaTable where
  entries : List IndexMeta
  deriving DecidableEq

/-- The build-request fingerprint comparison: non-deleted row whose request
agrees on data paths (exact order), type params, index params, index id and
index name. -/
def sameFingerprint (e : IndexMeta) (req : BuildIndexRequest) : Bool :=
  !e.markDeleted && e.req.dataPaths == req.dataPaths &&
    e.req.typeParams == req.typeParams && e.req.indexParams == req.indexParams &&
    e.req.indexID == req.indexID && e.req.indexName == req.indexName

/-- Modelled from the spec: metaTable.HasSameReq (source file not included)
computes the fingerprint over data-paths, type-params, index-params,
index-id and index-name and answers whether an existing non-deleted task
matches, returning its build id. -/
def MetaTable.HasSameReq (t : MetaTable) (req : BuildIndexRequest) : Bool × Int :=
  match t.entries.find? (fun e => sameFingerprint e req) with
  | some e => (true, e.indexBuildID)
  | none => (false, 0)

/-- Modelled from the spec: metaTable.GetIndexMeta is a lookup by build id. -/
def MetaTable.GetIndexMeta (t : MetaTable) (indexBuildID : Int) : Option IndexMeta :=
  t.entries.find? (fun e => e.indexBuildID == indexBuildID)

/-- Update the row of one build id in place. -/
def MetaTable.update (t : MetaTable) (indexBuildID : Int) (f : IndexMeta → IndexMeta) :
    MetaTable :=
  ⟨t.entries.map (fun e => if e.indexBuildID = indexBuildID then f e else e)⟩

/-- Modelled from the spec: metaTable.UpdateVersion bumps the meta version of
the task. -/
def MetaTable.UpdateVersion (t : MetaTable) (indexBuildID : Int) : MetaTable :=
  t.update indexBuildID (fun e => { e with version := e.version + 1 })

/-- Modelled from the spec: metaTable.BuildIndex moves the meta state of the
task to InProgress and records the assigned node. -/
def MetaTable.BuildIndex (t : MetaTable) (indexBuildID nodeID : Int) : MetaTable :=
  t.update indexBuildID (fun e => { e with state := .InProgress, nodeID := nodeID })

/-- Modelled from the spec: the priority queue of index workers, keyed by
outstanding-task count; an association list node-id to priority. -/
abbrev PriorityQueue := List (Int × Int)

/-- Modelled from the spec: PriorityQueue.PeekClient returns the worker with
the least outstanding-task count, ties broken by ascending server id; none
when the queue is empty. -/
def PeekClient (q : PriorityQueue) : Option Int :=
  match q with
  | [] => none
  | (id, p) :: rest =>
    match PeekClient rest with
    | none => some id
    | some best =>
      match rest.find? (fun e => e.1 == best) with
      | none => some id
      | some (bid, bp) =>
        if p < bp ∨ (p = bp ∧ id < bid) then some id else some bid

/-- Modelled from the spec: PriorityQueue.IncPriority adds to the
outstanding-task count of the worker. -/
def IncPriority (q : PriorityQueue) (nodeID : Int) (delta : Int) : PriorityQueue :=
  q.map (fun e => if e.1 = nodeID then (e.1, e.2 + delta) else e)

/-- Modelled from the spec: node-loss handling removes the worker from the
priority queue (IndexCoord.removeNode, source file not included). -/
def removeNode (q : PriorityQueue) (nodeID : Int) : PriorityQueue :=
  q.filter (fun e => e.1 ≠ nodeID)

/-- Modelled from the spec: the per-node task set, worker id to the build
ids assigned to it. -/
abbrev NodeTasks := List (Int × List Int)

/-- Modelled from the spec: nodeTasks.assignTask adds a build id to the task
set of the worker. -/
def NodeTasks.assignTask (nt : NodeTasks) (nodeID indexBuildID : Int) : NodeTasks :=
  match nt with
  | [] => [(nodeID, [indexBuildID])]
  | (k, v) :: rest =>
    if k = nodeID then (k, v ++ [indexBuildID]) :: rest
    else (k, v) :: assignTask rest nodeID indexBuildID

/-- Modelled from the spec: nodeTasks.getTasksByNodeID reads the task set of
the worker (empty when the worker is unknown). -/
def NodeTasks.getTasksByNodeID (nt : NodeTasks) (nodeID : Int) : List Int :=
  match nt.find? (fun e => e.1 == nodeID) with
  | some e => e.2
  | none => []

/-- Modelled from the spec: nodeTasks.delete removes the task set of the
worker. -/
def NodeTasks.delete (nt : NodeTasks) (nodeID : Int) : NodeTasks :=
  nt.filter (fun e => e.1 ≠ nodeID)

/-- The IndexCoord state touched by the embedded operations: the atomic
state code, the meta table, the id allocator counter, the assignment
channel (a queue of build-id batches), the node priority queue and the
per-node task sets. -/
structure IndexCoordState where
  stateCode : StateCode
  metaTable : MetaTable
  nextBuildID : Int
  assignChan : List (List Int)
  nodeClients : PriorityQueue
  nodeTasks : NodeTasks
  deriving DecidableEq

/-- indexpb.BuildIndexResponse. -/
structure BuildIndexResponse where
  status : Status
  indexBuildID : Int
  deriving DecidableEq

/-- IndexCoord.BuildIndex: if the meta table already holds a non-deleted
task with the same fingerprint, answer Success with its build id and change
nothing.  Otherwise run an IndexAddTask — modelled from the spec: allocate a
fresh build id, write a None-state meta row, and enqueue the id onto the
assignment channel — and answer Success with the new id.  The source
performs no state-code check on this path. -/
def IndexCoord.BuildIndex (s : IndexCoordState) (req : BuildIndexRequest) :
    IndexCoordState × BuildIndexResponse :=
  match s.metaTable.HasSameReq req with
  | (true, indexBuildID) =>
    (s, { status := { errorCode := .Success, reason := "already have same index" },
          indexBuildID := indexBuildID })
  | (false, _) =>
    let newID := s.nextBuildID
    let entry : IndexMeta :=
      { indexBuildID := newID, state := .IndexStateNone, req := req, version := 0,
        markDeleted := false, nodeID := 0 }
    ({ s with metaTable := ⟨s.metaTable.entries ++ [entry]⟩,
              nextBuildID := s.nextBuildID + 1,
              assignChan := s.assignChan ++ [[newID]] },
     { status := { errorCode := .Success, reason := "" }, indexBuildID := newID })

/-- Outcome of the CreateIndex RPC to the chosen worker: a transport error,
or a status returned by the worker. -/
inductive RpcOutcome
  | transportError (msg : String)
  | status (errorCode : ErrorCode) (reason : String)
  deriving DecidableEq

/-- One iteration of IndexCoord.assignmentTasksLoop for one dequeued build
id, with the RPC outcome supplied as an argument.  A Finished task is
skipped.  Otherwise the meta version is bumped; if no worker is available
the id is re-enqueued; otherwise the id is added to the task set of the
peeked worker and CreateIndex is issued: on transport error or non-Success
status the iteration just moves on (no re-enqueue, meta state unchanged);
on success the meta state moves to InProgress and the worker priority is
incremented. -/
def IndexCoord.assignOneTask (s : IndexCoordState) (indexBuildID : Int)
    (rpc : RpcOutcome) : IndexCoordState :=
  match s.metaTable.GetIndexMeta indexBuildID with
  | none => s
  | some metaRow =>
    if metaRow.state = .Finished then s
    else
      let s1 := { s with metaTable := s.metaTable.UpdateVersion indexBuildID }
      match PeekClient s1.nodeClients with
      | none => { s1 with assignChan := s1.assignChan ++ [[indexBuildID]] }
      | some nodeID =>
        let s2 := { s1 with nodeTasks := s1.nodeTasks.assignTask nodeID indexBuildID }
        match rpc with
        | .transportError _ => s2
        | .status errorCode _ =>
          if errorCode ≠ .Success then s2
          else
            { s2 with metaTable := s2.metaTable.BuildIndex indexBuildID nodeID,
                      nodeClients := IncPriority s2.nodeClients nodeID 1 }

/-- Session events delivered by the session registry watch stream. -/
inductive SessionEventType
  | SessionAddEvent
  | SessionDelEvent
  deriving DecidableEq

/-- A session watch event carrying the server id of the peer. -/
structure SessionEvent where
  eventType : SessionEventType
  serverID : Int
  deriving DecidableEq

/-- One iteration of IndexCoord.watchNodeLoop for one received session
event.  An add event only logs.  A removed event removes the worker from
the priority queue, pushes the task set of the worker onto the assignment
channel, and deletes the task set. -/
def IndexCoord.handleNodeEvent (s : IndexCoordState) (event : SessionEvent) :
    IndexCoordState :=
  match event.eventType with
  | .SessionAddEvent => s
  | .SessionDelEvent =>
    let s1 := { s with nodeClients := removeNode s.nodeClients event.serverID }
    let indexBuildIDs := s1.nodeTasks.getTasksByNodeID event.serverID
    { s1 with assignChan := s1.assignChan ++ [indexBuildIDs],
              nodeTasks := s1.nodeTasks.delete event.serverID }

end Indexcoord

namespace Datacoord

/-! ## DataCoord cluster (src/unnamed/part_005, package datacoord) -/

/-- datapb.ChannelWatchState. -/
inductive ChannelWatchState
  | Uncomplete
  | Complete
  deriving DecidableEq

/-- datapb.ChannelStatus: a channel bound to a node, with its watch state. -/
structure ChannelStatus where
  name : String
  collectionID : Int
  state : ChannelWatchState
  deriving DecidableEq

/-- datapb.DataNodeInfo, the persisted node record (NodeInfo wraps it with a
context and a client, which carry no state relevant to the claims). -/
structure DataNodeInfo where
  version : Int
  address : String
  channels : List ChannelStatus
  deriving DecidableEq

/-- Modelled from the spec: the cluster node store (type ClusterStore,
source file not included) maps the node version (server id) to its record. -/
abbrev ClusterStore := List (Int × DataNodeInfo)

/-- ClusterStore.GetNode. -/
def ClusterStore.GetNode (ns : ClusterStore) (version : Int) : Option DataNodeInfo :=
  match ns.find? (fun e => e.1 == version) with
  | some e => some e.2
  | none => none

/-- ClusterStore.DeleteNode. -/
def ClusterStore.DeleteNode (ns : ClusterStore) (version : Int) : ClusterStore :=
  ns.filter (fun e => e.1 ≠ version)

/-- ClusterStore.SetNode: overwrite-or-insert. -/
def ClusterStore.SetNode (ns : ClusterStore) (version : Int) (info : DataNodeInfo) :
    ClusterStore :=
  match ns with
  | [] => [(version, info)]
  | (k, v) :: rest =>
    if k = version then (k, info) :: rest else (k, v) :: SetNode rest version info

/-- A value persisted in the cluster KV namespace: a node record under the
cluster node key, or the channel buffer under the buffer key. -/
inductive ClusterKVValue
  | node (info : DataNodeInfo)
  | buffer (channels : List ChannelStatus)
  deriving DecidableEq

/-- The persisted cluster state. -/
abbrev ClusterKV := List (String × ClusterKVValue)

/-- Save one key into the cluster KV: overwrite-or-insert. -/
def clusterKvSave (kv : ClusterKV) (key : String) (value : ClusterKVValue) : ClusterKV :=
  match kv with
  | [] => [(key, value)]
  | (k, v) :: rest =>
    if k = key then (k, value) :: rest else (k, v) :: clusterKvSave rest key value

/-- The Cluster state touched by the embedded event handlers: the node
store, the buffer of unwatched channels, and the persisted cluster state. -/
structure ClusterState where
  nodes : ClusterStore
  chanBuffer : List ChannelStatus
  kv : ClusterKV
  deriving DecidableEq

/-- Cluster.txnSaveNodesAndBuffer: when there is nothing to write, skip;
otherwise MultiSave every node record under its cluster key and the buffer
under the buffer key. -/
def Cluster.txnSaveNodesAndBuffer (kv : ClusterKV) (nodes : List DataNodeInfo)
    (buffer : List ChannelStatus) : ClusterKV :=
  if nodes.length = 0 ∧ buffer.length = 0 then kv
  else
    let kv1 := nodes.foldl
      (fun acc n => clusterKvSave acc ("cluster-" ++ toString n.version) (.node n)) kv
    clusterKvSave kv1 "cluster-buffer" (.buffer buffer)

/-- An outward watch request produced by Cluster.watch: the WatchDmChannels
RPC for the Uncomplete channels of a node. -/
structure WatchEvent where
  nodeVersion : Int
  channels : List ChannelStatus
  deriving DecidableEq

/-- Cluster.watch: issue a WatchDmChannels event when the node has
Uncomplete channels, nothing otherwise. -/
def Cluster.watch (n : DataNodeInfo) : List WatchEvent :=
  let uncompletes := n.channels.filter (fun ch => ch.state = .Uncomplete)
  if uncompletes.length = 0 then []
  else [{ nodeVersion := n.version, channels := uncompletes }]

/-- Cluster.handleUnRegister: an unregister event for a node absent from the
node store returns at once.  Otherwise the node is deleted; if it was the
last node its channels go to the buffer as Uncomplete, else the unregister
policy reassigns them to the remaining nodes; the result is persisted and
watch requests are issued for the reassigned nodes. -/
def Cluster.handleUnRegister (c : ClusterState)
    (unregisterPolicy : List DataNodeInfo → DataNodeInfo → List DataNodeInfo)
    (n : DataNodeInfo) : ClusterState × List WatchEvent :=
  match c.nodes.GetNode n.version with
  | none => (c, [])
  | some node =>
    let nodes1 := c.nodes.DeleteNode n.version
    let cNodes := nodes1.map (·.2)
    if cNodes.length = 0 then
      let buf := c.chanBuffer ++ node.channels.map (fun ch => { ch with state := .Uncomplete })
      let kv1 := Cluster.txnSaveNodesAndBuffer c.kv [] buf
      ({ nodes := nodes1, chanBuffer := buf, kv := kv1 }, [])
    else
      let rets := unregisterPolicy cNodes n
      let kv1 := Cluster.txnSaveNodesAndBuffer c.kv rets c.chanBuffer
      let nodes2 := rets.foldl (fun acc nd => ClusterStore.SetNode acc nd.version nd) nodes1
      ({ nodes := nodes2, chanBuffer := c.chanBuffer, kv := kv1 },
       rets.flatMap Cluster.watch)

end Datacoord

namespace Indexcoord

/-- Whether a CreateIndex RPC outcome counts as a failure in the assignment
loop: a transport error, or a returned non-Success status. -/
def RpcOutcome.failed : RpcOutcome → Bool
  | .transportError _ => true
  | .status .Success _ => false
  | .status .UnexpectedError _ => true

/-! ### Concrete states used by witnesses and counterexamples -/

/-- A concrete build request. -/
def reqA : BuildIndexRequest :=
  { indexBuildID := 0, indexName := "idx", indexID := 3,
    dataPaths := ["path1", "path2"], typeParams := [("dim", "8")],
    indexParams := [("index_type", "IVF_FLAT")] }

/-- A concrete meta row holding reqA under build id 7, not deleted. -/
def metaA : IndexMeta :=
  { indexBuildID := 7, state := .Unissued, req := reqA, version := 0,
    markDeleted := false, nodeID := 0 }

/-- A concrete IndexCoord state: not Healthy, one existing task (build id
7) matching reqA, one idle worker (id 1), empty assignment channel. -/
def stateA : IndexCoordState :=
  { stateCode := .Abnormal, metaTable := ⟨[metaA]⟩, nextBuildID := 8,
    assignChan := [], nodeClients := [(1, 0)], nodeTasks := [] }

end Indexcoord

namespace Datacoord

/-- A concrete segment row: id 1, already Flushed, 5 rows, a stored dml
position at timestamp 10 and a stored non-empty start position. -/
def segRow1 : SegmentInfo :=
  { id := 1, collectionID := 10, partitionID := 100,
    insertChannel := "ch0", numOfRows := 5, state := .Flushed,
    dmlPosition := some { msgID := [3], timestamp := 10 },
    startPosition := some { msgID := [7], timestamp := 5 } }

/-- A concrete data-coordinator meta holding only segRow1. -/
def metaFlushedSeg : meta :=
  { segments := [(1, segRow1)], kv := [] }

/-- A concrete cluster state with no registered data nodes. -/
def clusterEmpty : ClusterState :=
  { nodes := [], chanBuffer := [], kv := [] }

/-- A concrete data node that is not in clusterEmpty. -/
def nodeB : DataNodeInfo :=
  { version := 3, address := "localhost:21124", channels := [] }

/-- A trivial unregister policy, standing in for the configurable policy
field. -/
def trivialUnregisterPolicy : List DataNodeInfo → DataNodeInfo → List DataNodeInfo :=
  fun _ _ => []

end Datacoord

namespace Rootcoord

/-- A concrete collection with two physical channels. -/
def collB : CollectionInfo :=
  { name := "coll1", physicalChannelNames := ["by-dev-rootcoord-dml_0", "by-dev-rootcoord-dml_1"] }

/-- A concrete stored DDL operation: a CreateCollection on collB. -/
def ddOpB : DdOperation :=
  { ddType := CreateCollectionDDType,
    body := { dbName := "default", collectionName := "coll1", timestamp := 42 } }

/-- A concrete RootCoord state in which the DdMsgSent flag is false and the
stored operation refers to a collection that still exists. -/
def coreB : CoreState :=
  { ddMsgFlag := some "false", ddOperation := some ddOpB, collections := [collB] }

end Rootcoord

/-! ## Theorems -/

namespace Datacoord

/-- Updating a segment id rewrites exactly that entry. -/
theorem SegmentsInfo.GetSegment_update_eq (s : SegmentsInfo) (segmentID : Int)
    (f : SegmentInfo → SegmentInfo) :
    (s.update segmentID f).GetSegment segmentID = (s.GetSegment segmentID).map f := by
  induction s with
  | nil => rfl
  | cons hd tl ih =>
    obtain ⟨k, v⟩ := hd
    by_cases hk : k = segmentID
    · simp [SegmentsInfo.update, SegmentsInfo.GetSegment, hk]
    · simp [SegmentsInfo.update, SegmentsInfo.GetSegment, hk, ih]

/-- Updating a segment id leaves every other entry unchanged. -/
theorem SegmentsInfo.GetSegment_update_ne (s : SegmentsInfo) (segmentID otherID : Int)
    (f : SegmentInfo → SegmentInfo) (h : otherID ≠ segmentID) :
    (s.update segmentID f).GetSegment otherID = s.GetSegment otherID := by
  induction s with
  | nil => rfl
  | cons hd tl ih =>
    obtain ⟨k, v⟩ := hd
    by_cases hk : k = segmentID
    · subst hk
      simp [SegmentsInfo.update, SegmentsInfo.GetSegment, Ne.symm h]
    · simp [SegmentsInfo.update, SegmentsInfo.GetSegment, hk, ih]

/-- A projection invariant under the updating function is unchanged by the
update, at every id. -/
theorem SegmentsInfo.GetSegment_map_update {α : Type} (s : SegmentsInfo)
    (segmentID otherID : Int) (f : SegmentInfo → SegmentInfo) (g : SegmentInfo → α)
    (hf : ∀ x, g (f x) = g x) :
    ((s.update segmentID f).GetSegment otherID).map g = (s.GetSegment otherID).map g := by
  by_cases h : otherID = segmentID
  · subst h
    rw [SegmentsInfo.GetSegment_update_eq]
    cases s.GetSegment otherID <;> simp [hf]
  · rw [SegmentsInfo.GetSegment_update_ne _ _ _ _ h]

/-- The start-position pass changes no projection that ignores the start
position. -/
theorem applyStartPositions_map_preserve {α : Type} (g : SegmentInfo → α)
    (hg : ∀ x p, g { x with startPosition := p } = g x) :
    ∀ (l : List SegmentStartPosition) (segs : SegmentsInfo) (mods : List Int) (segmentID : Int),
      (((applyStartPositions segs mods l).1).GetSegment segmentID).map g
        = (segs.GetSegment segmentID).map g := by
  intro l
  induction l with
  | nil => intro segs mods segmentID; rfl
  | cons pos rest ih =>
    intro segs mods segmentID
    rw [applyStartPositions]
    split
    · exact ih segs mods segmentID
    · split
      · rw [ih]
        unfold SegmentsInfo.SetStartPosition
        exact SegmentsInfo.GetSegment_map_update _ _ _ _ g (fun x => hg x _)
      · exact ih segs mods segmentID

/-- The checkpoint pass changes no projection that ignores the dml position
and the row count. -/
theorem applyCheckpoints_map_preserve {α : Type} (g : SegmentInfo → α)
    (hg1 : ∀ x p, g { x with dmlPosition := p } = g x)
    (hg2 : ∀ x n, g { x with numOfRows := n } = g x) :
    ∀ (l : List CheckPoint) (segs : SegmentsInfo) (mods : List Int) (segmentID : Int),
      (((applyCheckpoints segs mods l).1).GetSegment segmentID).map g
        = (segs.GetSegment segmentID).map g := by
  intro l
  induction l with
  | nil => intro segs mods segmentID; rfl
  | cons cp rest ih =>
    intro segs mods segmentID
    rw [applyCheckpoints]
    split
    · rename_i segment hseg
      split
      · split
        · exact ih segs mods segmentID
        · rw [ih]
          unfold SegmentsInfo.SetRowCount SegmentsInfo.SetDmlPositino
          rw [SegmentsInfo.GetSegment_map_update _ _ _ _ g (fun x => hg2 x _)]
          exact SegmentsInfo.GetSegment_map_update _ _ _ _ g (fun x => hg1 x _)
      · rw [ih]
        unfold SegmentsInfo.SetRowCount SegmentsInfo.SetDmlPositino
        rw [SegmentsInfo.GetSegment_map_update _ _ _ _ g (fun x => hg2 x _)]
        exact SegmentsInfo.GetSegment_map_update _ _ _ _ g (fun x => hg1 x _)
    · exact ih segs mods segmentID

/-- The in-memory segment table produced by meta.SetState, independent of
whether the KV write happens. -/
theorem meta.SetState_segments (m : meta) (segmentID : Int) (st : SegmentState) :
    (meta.SetState m segmentID st).segments = m.segments.SetState segmentID st := by
  simp only [meta.SetState]
  split <;> rfl

/-- The in-memory segment table produced by meta.SetRowCount. -/
theorem meta.SetRowCount_segments (m : meta) (segmentID : Int) (rowCount : Int) :
    (meta.SetRowCount m segmentID rowCount).segments
      = m.segments.SetRowCount segmentID rowCount := by
  simp only [meta.SetRowCount]
  split <;> rfl

/-- The in-memory segment table produced by meta.SaveBinlogAndCheckPoints. -/
theorem meta.SaveBinlogAndCheckPoints_segments (m : meta) (segID : Int) (flushed : Bool)
    (binlogs : List (String × String)) (checkpoints : List CheckPoint)
    (startPositions : List SegmentStartPosition) :
    (meta.SaveBinlogAndCheckPoints m segID flushed binlogs checkpoints startPositions).segments
      = (applyCheckpoints
          (applyStartPositions
            (if flushed then m.segments.SetState segID .Flushing else m.segments)
            [] startPositions).1
          (applyStartPositions
            (if flushed then m.segments.SetState segID .Flushing else m.segments)
            [] startPositions).2
          checkpoints).1 := by
  rfl

/-- A checkpoint batch in which every checkpoint aimed at the given segment
is not newer than the stored dml position leaves the dml position and the
row count of that segment unchanged. -/
theorem applyCheckpoints_skip (d : MsgPosition) (rows : Int) :
    ∀ (l : List CheckPoint) (segs : SegmentsInfo) (mods : List Int) (segmentID : Int),
      (segs.GetSegment segmentID).map (fun s => (s.dmlPosition, s.numOfRows))
          = some (some d, rows) →
      (∀ cp ∈ l, cp.segmentID = segmentID → cp.position.timestamp ≤ d.timestamp) →
      (((applyCheckpoints segs mods l).1).GetSegment segmentID).map
          (fun s => (s.dmlPosition, s.numOfRows)) = some (some d, rows) := by
  intro l
  induction l with
  | nil => intro segs mods segmentID hs _; exact hs
  | cons cp rest ih =>
    intro segs mods segmentID hs hcp
    have hcpRest : ∀ cp' ∈ rest, cp'.segmentID = segmentID →
        cp'.position.timestamp ≤ d.timestamp :=
      fun cp' hmem => hcp cp' (List.mem_cons_of_mem cp hmem)
    rw [applyCheckpoints]
    split
    · rename_i segment hseg
      split
      · rename_i d' hd'
        split
        · exact ih segs mods segmentID hs hcpRest
        · rename_i hts
          have hne : cp.segmentID ≠ segmentID := by
            intro he
            rw [he] at hseg
            rw [hseg] at hs
            simp only [Option.map_some', Option.some_inj, Prod.mk.injEq] at hs
            rw [hs.1] at hd'
            have hdd : d = d' := Option.some_inj.mp hd'
            exact hts (le_of_le_of_eq (hcp cp (List.mem_cons_self cp rest) he)
              (congrArg MsgPosition.timestamp hdd))
          apply ih _ _ segmentID _ hcpRest
          have hget : ((segs.SetDmlPositino cp.segmentID (some cp.position)).SetRowCount
              cp.segmentID cp.numOfRows).GetSegment segmentID = segs.GetSegment segmentID := by
            unfold SegmentsInfo.SetRowCount SegmentsInfo.SetDmlPositino
            rw [SegmentsInfo.GetSegment_update_ne _ _ _ _ (Ne.symm hne),
              SegmentsInfo.GetSegment_update_ne _ _ _ _ (Ne.symm hne)]
          rw [hget]
          exact hs
      · rename_i hd'
        have hne : cp.segmentID ≠ segmentID := by
          intro he
          rw [he] at hseg
          rw [hseg] at hs
          simp only [Option.map_some', Option.some_inj, Prod.mk.injEq] at hs
          rw [hs.1] at hd'
          exact Option.noConfusion hd'
        apply ih _ _ segmentID _ hcpRest
        have hget : ((segs.SetDmlPositino cp.segmentID (some cp.position)).SetRowCount
            cp.segmentID cp.numOfRows).GetSegment segmentID = segs.GetSegment segmentID := by
          unfold SegmentsInfo.SetRowCount SegmentsInfo.SetDmlPositino
          rw [SegmentsInfo.GetSegment_update_ne _ _ _ _ (Ne.symm hne),
            SegmentsInfo.GetSegment_update_ne _ _ _ _ (Ne.symm hne)]
        rw [hget]
        exact hs
    · exact ih segs mods segmentID hs hcpRest

/-- C2 (amended): the meta operations write the segment state
unconditionally rather than enforcing monotonicity: meta.SetState stores
exactly the requested state for the addressed segment (flush completion
uses it with target Flushed), and meta.SaveBinlogAndCheckPoints with the
flushed flag stores Flushing, whatever the previous state was.  There is no
backward-movement guard at this layer. -/
theorem segment_state_written_unconditionally (m : meta) (segmentID : Int)
    (st : SegmentState) (segID : Int) (binlogs : List (String × String))
    (checkpoints : List CheckPoint) (startPositions : List SegmentStartPosition) :
    ((meta.SetState m segmentID st).segments.GetSegment segmentID).map SegmentInfo.state
        = (m.segments.GetSegment segmentID).map (fun _ => st) ∧
    ((meta.SaveBinlogAndCheckPoints m segID true binlogs checkpoints
        startPositions).segments.GetSegment segID).map SegmentInfo.state
        = (m.segments.GetSegment segID).map (fun _ => SegmentState.Flushing) := by
  constructor
  · rw [meta.SetState_segments]
    unfold SegmentsInfo.SetState
    rw [SegmentsInfo.GetSegment_update_eq]
    cases m.segments.GetSegment segmentID <;> rfl
  · rw [meta.SaveBinlogAndCheckPoints_segments]
    rw [applyCheckpoints_map_preserve SegmentInfo.state (fun _ _ => rfl) (fun _ _ => rfl)]
    rw [applyStartPositions_map_preserve SegmentInfo.state (fun _ _ => rfl)]
    simp only [if_true]
    unfold SegmentsInfo.SetState
    rw [SegmentsInfo.GetSegment_update_eq]
    cases m.segments.GetSegment segID <;> rfl

/-- C2 (counterexample): a segment that is already Flushed (rank 4) is
moved back to Growing (rank 1) by meta.SetState, so the segment state is
not monotone under arbitrary meta operations. -/
theorem setState_moves_segment_state_backward :
    ((metaFlushedSeg.segments.GetSegment 1).map (fun s => s.state.rank) = some 4) ∧
    (((meta.SetState metaFlushedSeg 1 .Growing).segments.GetSegment 1).map
        (fun s => s.state.rank) = some 1) ∧ (1 : Nat) < 4 := by decide

/-- C5: evaluation of the code at the failing input.  Segment 1 stores a
non-empty start position; a later SaveBinlogAndCheckPoints carrying a start
position with an empty MsgID overwrites it, because the guard inspects the
incoming MsgID instead of the stored one. -/
theorem saveBinlog_overwrites_nonempty_start_position :
    ((metaFlushedSeg.segments.GetSegment 1).map SegmentInfo.startPosition
        = some (some { msgID := [7], timestamp := 5 })) ∧
    (((meta.SaveBinlogAndCheckPoints metaFlushedSeg 1 false [] []
        [{ segmentID := 1, startPosition := some { msgID := [], timestamp := 0 } }]
      ).segments.GetSegment 1).map SegmentInfo.startPosition
        = some (some { msgID := [], timestamp := 0 })) := by decide

/-- C6 (counterexample): meta.SetRowCount lowers the stored row count of
segment 1 from 5 to 3, so num_rows is not monotone under arbitrary meta
operations. -/
theorem setRowCount_decreases_num_rows :
    ((metaFlushedSeg.segments.GetSegment 1).map SegmentInfo.numOfRows = some 5) ∧
    (((meta.SetRowCount metaFlushedSeg 1 3).segments.GetSegment 1).map SegmentInfo.numOfRows
        = some 3) ∧ (3 : Int) < 5 := by decide

/-- C6 (amended): meta.SetRowCount stores exactly the requested row count
(no monotonicity is enforced), and in meta.SaveBinlogAndCheckPoints a
checkpoint whose position timestamp is not newer than the stored dml
position timestamp leaves both the dml position and the row count of that
segment unchanged. -/
theorem rowCount_overwrite_and_checkpoint_guard (m : meta) (segmentID : Int) (n : Int)
    (segID ckSegID : Int) (flushed : Bool) (binlogs : List (String × String))
    (checkpoints : List CheckPoint) (startPositions : List SegmentStartPosition)
    (d : MsgPosition) (rows : Int)
    (hstored : (m.segments.GetSegment ckSegID).map (fun s => (s.dmlPosition, s.numOfRows))
        = some (some d, rows))
    (hold : ∀ cp ∈ checkpoints, cp.segmentID = ckSegID →
        cp.position.timestamp ≤ d.timestamp) :
    ((meta.SetRowCount m segmentID n).segments.GetSegment segmentID).map SegmentInfo.numOfRows
        = (m.segments.GetSegment segmentID).map (fun _ => n) ∧
    ((meta.SaveBinlogAndCheckPoints m segID flushed binlogs checkpoints
        startPositions).segments.GetSegment ckSegID).map
        (fun s => (s.dmlPosition, s.numOfRows)) = some (some d, rows) := by
  constructor
  · rw [meta.SetRowCount_segments]
    unfold SegmentsInfo.SetRowCount
    rw [SegmentsInfo.GetSegment_update_eq]
    cases m.segments.GetSegment segmentID <;> rfl
  · rw [meta.SaveBinlogAndCheckPoints_segments]
    apply applyCheckpoints_skip d rows checkpoints _ _ ckSegID _ hold
    rw [applyStartPositions_map_preserve (fun s => (s.dmlPosition, s.numOfRows))
      (fun _ _ => rfl)]
    cases flushed with
    | false => exact hstored
    | true =>
      simp only [if_true]
      unfold SegmentsInfo.SetState
      rw [SegmentsInfo.GetSegment_map_update m.segments segID ckSegID
        (fun seg => { seg with state := SegmentState.Flushing })
        (fun s => (s.dmlPosition, s.numOfRows)) (fun _ => rfl)]
      exact hstored

/-- C6 witness: the amended theorem applied to metaFlushedSeg with a
checkpoint at the stored dml timestamp (10): the row count is overwritten
to 3 by SetRowCount, and the not-newer checkpoint changes nothing. -/
theorem rowCount_overwrite_and_checkpoint_guard_witness :
    ((meta.SetRowCount metaFlushedSeg 1 3).segments.GetSegment 1).map SegmentInfo.numOfRows
        = (metaFlushedSeg.segments.GetSegment 1).map (fun _ => (3 : Int)) ∧
    ((meta.SaveBinlogAndCheckPoints metaFlushedSeg 1 false []
        [{ segmentID := 1, position := { msgID := [9], timestamp := 10 }, numOfRows := 99 }]
        []).segments.GetSegment 1).map (fun s => (s.dmlPosition, s.numOfRows))
        = some (some { msgID := [3], timestamp := 10 }, 5) :=
  rowCount_overwrite_and_checkpoint_guard metaFlushedSeg 1 3 1 1 false []
    [{ segmentID := 1, position := { msgID := [9], timestamp := 10 }, numOfRows := 99 }]
    [] { msgID := [3], timestamp := 10 } 5 (by decide) (by decide)

/-- C9: meta.GetUnFlushedSegments returns exactly the stored segments whose
state is neither Flushing nor Flushed; in particular Growing, Sealed and
Dropped segments are all reported. -/
theorem getUnFlushedSegments_iff (m : meta) (info : SegmentInfo) :
    info ∈ meta.GetUnFlushedSegments m ↔
      info ∈ m.segments.GetSegments ∧ info.state ≠ .Flushing ∧ info.state ≠ .Flushed := by
  unfold meta.GetUnFlushedSegments
  rw [List.mem_filter]
  simp

end Datacoord

namespace Indexcoord

/-- The fingerprint matches the request stored in a fresh non-deleted row. -/
theorem sameFingerprint_self (req : BuildIndexRequest) (bid : Int) (st : IndexState)
    (v nid : Int) :
    sameFingerprint ⟨bid, st, req, v, false, nid⟩ req = true := by
  simp [sameFingerprint]

/-- Appending a fresh non-deleted row holding the request to a table without
a fingerprint match makes HasSameReq find exactly that row. -/
theorem MetaTable.hasSameReq_append_self (t : MetaTable) (req : BuildIndexRequest)
    (bid : Int) (st : IndexState) (v nid : Int)
    (hnone : t.entries.find? (fun e => sameFingerprint e req) = none) :
    (MetaTable.mk (t.entries ++ [⟨bid, st, req, v, false, nid⟩])).HasSameReq req
      = (true, bid) := by
  unfold MetaTable.HasSameReq
  rw [List.find?_append, hnone]
  simp [List.find?, sameFingerprint_self]

/-- C1: BuildIndex is idempotent via the request fingerprint.  A call whose
fingerprint matches an existing non-deleted task answers Success with the
build id of that task and changes nothing; consequently a second BuildIndex
with the same request returns the build id of the first call with Success
status and creates no new task (the state after the second call equals the
state after the first). -/
theorem buildIndex_idempotent (s : IndexCoordState) (req : BuildIndexRequest) :
    (∀ bid, s.metaTable.HasSameReq req = (true, bid) →
      IndexCoord.BuildIndex s req
        = (s, ⟨⟨.Success, "already have same index"⟩, bid⟩)) ∧
    ((IndexCoord.BuildIndex (IndexCoord.BuildIndex s req).1 req).2.status.errorCode
        = .Success ∧
     (IndexCoord.BuildIndex (IndexCoord.BuildIndex s req).1 req).2.indexBuildID
        = (IndexCoord.BuildIndex s req).2.indexBuildID ∧
     (IndexCoord.BuildIndex (IndexCoord.BuildIndex s req).1 req).1
        = (IndexCoord.BuildIndex s req).1) := by
  have hmatch : ∀ (s' : IndexCoordState) (bid : Int),
      s'.metaTable.HasSameReq req = (true, bid) →
      IndexCoord.BuildIndex s' req
        = (s', ⟨⟨.Success, "already have same index"⟩, bid⟩) := by
    intro s' bid h
    simp [IndexCoord.BuildIndex, h]
  refine ⟨hmatch s, ?_⟩
  rcases h : s.metaTable.HasSameReq req with ⟨b, bid⟩
  cases b
  · have hnone : s.metaTable.entries.find? (fun e => sameFingerprint e req) = none := by
      unfold MetaTable.HasSameReq at h
      rcases hf : s.metaTable.entries.find? (fun e => sameFingerprint e req) with _ | e
      · rfl
      · rw [hf] at h
        exact absurd (congrArg Prod.fst h) (by simp)
    have h1 : IndexCoord.BuildIndex s req
        = (⟨s.stateCode,
            ⟨s.metaTable.entries ++ [⟨s.nextBuildID, .IndexStateNone, req, 0, false, 0⟩]⟩,
            s.nextBuildID + 1, s.assignChan ++ [[s.nextBuildID]],
            s.nodeClients, s.nodeTasks⟩,
           ⟨⟨.Success, ""⟩, s.nextBuildID⟩) := by
      simp [IndexCoord.BuildIndex, h]
    have h2 : ((IndexCoord.BuildIndex s req).1).metaTable.HasSameReq req
        = (true, s.nextBuildID) := by
      rw [h1]
      exact MetaTable.hasSameReq_append_self _ req _ _ _ _ hnone
    rw [hmatch _ _ h2, h1]
    exact ⟨rfl, rfl, rfl⟩
  · simp [hmatch s bid h]

/-- C1 witness: at the concrete state stateA, whose meta table already holds
a non-deleted task (build id 7) with the fingerprint of reqA, BuildIndex
answers Success with build id 7 and changes nothing. -/
theorem buildIndex_idempotent_witness :
    stateA.metaTable.HasSameReq reqA = (true, 7) ∧
    IndexCoord.BuildIndex stateA reqA
      = (stateA, ⟨⟨.Success, "already have same index"⟩, 7⟩) :=
  ⟨by decide, (buildIndex_idempotent stateA reqA).1 7 (by decide)⟩

/-- C4 (counterexample): IndexCoord.BuildIndex executes and answers Success
although the coordinator state code is Abnormal — the IndexCoord RPCs
perform no health check, so the health gate does not hold for every RPC of
every coordinator. -/
theorem buildIndex_ignores_state_code :
    stateA.stateCode = .Abnormal ∧
    (IndexCoord.BuildIndex stateA reqA).2.status.errorCode = .Success := by decide

/-- A lookup through an in-place row update that preserves the build id. -/
theorem MetaTable.GetIndexMeta_update (t : MetaTable) (bid bid' : Int)
    (f : IndexMeta → IndexMeta) (hf : ∀ e, (f e).indexBuildID = e.indexBuildID) :
    (t.update bid f).GetIndexMeta bid'
      = (t.GetIndexMeta bid').map (fun e => if e.indexBuildID = bid then f e else e) := by
  rcases t with ⟨l⟩
  unfold MetaTable.GetIndexMeta MetaTable.update
  simp only
  induction l with
  | nil => rfl
  | cons e rest ih =>
    simp only [List.map_cons, List.find?_cons]
    by_cases he : e.indexBuildID = bid
    · rw [if_pos he]
      have hpred : ((f e).indexBuildID == bid') = (e.indexBuildID == bid') := by rw [hf]
      rw [hpred]
      cases hp : (e.indexBuildID == bid')
      · simpa [hp] using ih
      · simp [hp, he]
    · rw [if_neg he]
      cases hp : (e.indexBuildID == bid')
      · simpa [hp] using ih
      · simp [hp, he]

/-- C7 (counterexample): at the concrete state stateA, holding one pending
task (build id 7) and one available worker, a failing CreateIndex RPC
leaves the assignment channel empty — the build id is not re-enqueued, the
iteration merely skips it (while the meta state indeed stays Unissued). -/
theorem failed_rpc_not_reenqueued :
    (IndexCoord.assignOneTask stateA 7 (.transportError "connection refused")).assignChan
        = [] ∧
    ((IndexCoord.assignOneTask stateA 7
        (.transportError "connection refused")).metaTable.GetIndexMeta 7).map
        IndexMeta.state = some .Unissued := by decide

/-- C7 (amended): in the assignment loop, when the CreateIndex RPC fails
(transport error or non-Success status) the meta state of the task is left
unchanged (not moved to InProgress), the worker priority is untouched, and
the build id is NOT put back onto the assignment channel — the iteration
skips it; only on RPC success does the meta state move to InProgress and
the worker priority counter grow. -/
theorem assignment_loop_failure_semantics (s : IndexCoordState) (bid : Int)
    (metaRow : IndexMeta) (nodeID : Int) (rpc : RpcOutcome)
    (hmeta : s.metaTable.GetIndexMeta bid = some metaRow)
    (hnf : metaRow.state ≠ .Finished)
    (hpeek : PeekClient s.nodeClients = some nodeID) :
    (rpc.failed = true →
      (IndexCoord.assignOneTask s bid rpc).assignChan = s.assignChan ∧
      ((IndexCoord.assignOneTask s bid rpc).metaTable.GetIndexMeta bid).map IndexMeta.state
          = some metaRow.state ∧
      (IndexCoord.assignOneTask s bid rpc).nodeClients = s.nodeClients) ∧
    (∀ reason, rpc = .status .Success reason →
      ((IndexCoord.assignOneTask s bid rpc).metaTable.GetIndexMeta bid).map IndexMeta.state
          = some IndexState.InProgress ∧
      (IndexCoord.assignOneTask s bid rpc).nodeClients
          = IncPriority s.nodeClients nodeID 1) := by
  have hkey : metaRow.indexBuildID = bid := by
    have h0 : List.find? (fun e => e.indexBuildID == bid) s.metaTable.entries
        = some metaRow := by
      simpa [MetaTable.GetIndexMeta] using hmeta
    have h1 := List.find?_some h0
    exact eq_of_beq h1
  have hup : (s.metaTable.UpdateVersion bid).GetIndexMeta bid
      = some { metaRow with version := metaRow.version + 1 } := by
    unfold MetaTable.UpdateVersion
    rw [MetaTable.GetIndexMeta_update s.metaTable bid bid
      (fun e => { e with version := e.version + 1 }) (fun _ => rfl), hmeta]
    simp [hkey]
  have hbi : ((s.metaTable.UpdateVersion bid).BuildIndex bid nodeID).GetIndexMeta bid
      = some { metaRow with
               version := metaRow.version + 1, state := .InProgress, nodeID := nodeID } := by
    unfold MetaTable.BuildIndex
    rw [MetaTable.GetIndexMeta_update (s.metaTable.UpdateVersion bid) bid bid
      (fun e => { e with state := .InProgress, nodeID := nodeID }) (fun _ => rfl), hup]
    simp [hkey]
  constructor
  · intro hfail
    cases rpc with
    | transportError msg =>
      refine ⟨?_, ?_, ?_⟩ <;> simp [IndexCoord.assignOneTask, hmeta, hnf, hpeek, hup]
    | status ec reason =>
      cases ec with
      | Success => simp [RpcOutcome.failed] at hfail
      | UnexpectedError =>
        refine ⟨?_, ?_, ?_⟩ <;> simp [IndexCoord.assignOneTask, hmeta, hnf, hpeek, hup]
  · intro reason hr
    subst hr
    constructor <;> simp [IndexCoord.assignOneTask, hmeta, hnf, hpeek, hbi]

/-- C7 witness: the amended theorem applied at stateA: a transport failure
leaves the assignment channel and the meta state as they were, while a
Success status moves the task to InProgress and bumps the priority of
worker 1. -/
theorem assignment_loop_failure_semantics_witness :
    ((IndexCoord.assignOneTask stateA 7 (.transportError "connection refused")).assignChan
        = stateA.assignChan ∧
     ((IndexCoord.assignOneTask stateA 7
         (.transportError "connection refused")).metaTable.GetIndexMeta 7).map
         IndexMeta.state = some metaA.state ∧
     (IndexCoord.assignOneTask stateA 7
         (.transportError "connection refused")).nodeClients = stateA.nodeClients) ∧
    (((IndexCoord.assignOneTask stateA 7 (.status .Success "")).metaTable.GetIndexMeta 7).map
        IndexMeta.state = some IndexState.InProgress ∧
     (IndexCoord.assignOneTask stateA 7 (.status .Success "")).nodeClients
        = IncPriority stateA.nodeClients 1 1) :=
  ⟨(assignment_loop_failure_semantics stateA 7 metaA 1 (.transportError "connection refused")
      (by decide) (by decide) (by decide)).1 (by decide),
   (assignment_loop_failure_semantics stateA 7 metaA 1 (.status .Success "")
      (by decide) (by decide) (by decide)).2 "" rfl⟩

/-- Removing a node from the priority queue makes it unfindable there. -/
theorem removeNode_find?_none (q : PriorityQueue) (nodeID : Int) :
    (removeNode q nodeID).find? (fun e => e.1 == nodeID) = none := by
  rw [List.find?_eq_none]
  intro e he
  rcases List.mem_filter.mp he with ⟨_, hpred⟩
  simp only [decide_eq_true_eq] at hpred
  simp [hpred]

/-- Deleting the task set of a node makes it unfindable there. -/
theorem nodeTasks_delete_find?_none (nt : NodeTasks) (nodeID : Int) :
    (nt.delete nodeID).find? (fun e => e.1 == nodeID) = none := by
  unfold NodeTasks.delete
  rw [List.find?_eq_none]
  intro e he
  rcases List.mem_filter.mp he with ⟨_, hpred⟩
  simp only [decide_eq_true_eq] at hpred
  simp [hpred]

/-- C8: on a session-removed event the scheduler removes the worker from
the priority queue (it is no longer findable there), appends the whole task
set of the worker onto the assignment channel, and deletes the task set. -/
theorem watchNodeLoop_drains_removed_worker (s : IndexCoordState) (serverID : Int) :
    (IndexCoord.handleNodeEvent s ⟨.SessionDelEvent, serverID⟩).nodeClients
      = removeNode s.nodeClients serverID ∧
    ((IndexCoord.handleNodeEvent s ⟨.SessionDelEvent, serverID⟩).nodeClients).find?
        (fun e => e.1 == serverID) = none ∧
    (IndexCoord.handleNodeEvent s ⟨.SessionDelEvent, serverID⟩).assignChan
      = s.assignChan ++ [s.nodeTasks.getTasksByNodeID serverID] ∧
    ((IndexCoord.handleNodeEvent s ⟨.SessionDelEvent, serverID⟩).nodeTasks).find?
        (fun e => e.1 == serverID) = none :=
  ⟨rfl, removeNode_find?_none s.nodeClients serverID, rfl,
   nodeTasks_delete_find?_none s.nodeTasks serverID⟩

end Indexcoord

namespace Rootcoord

/-- C3: startup replay.  When the DdMsgSent flag is absent or the string
true, reSendDdMsg does nothing and returns no error (likewise when the
stored DdOperation is absent).  When the flag is the string false and a
stored operation of one of the four DDL types names a collection that
resolves, the corresponding DDL message is re-published on the physical
channels of that collection, the call succeeds, and the flag is set to
true. -/
theorem reSendDdMsg_replay (s : CoreState) :
    (s.ddMsgFlag = none → Core.reSendDdMsg s = (s, [], .ok ())) ∧
    (s.ddMsgFlag = some "true" → Core.reSendDdMsg s = (s, [], .ok ())) ∧
    (s.ddMsgFlag = some "false" → s.ddOperation = none →
      Core.reSendDdMsg s = (s, [], .ok ())) ∧
    (∀ ddOp collInfo,
      s.ddMsgFlag = some "false" →
      s.ddOperation = some ddOp →
      (ddOp.ddType = CreateCollectionDDType ∨ ddOp.ddType = DropCollectionDDType ∨
        ddOp.ddType = CreatePartitionDDType ∨ ddOp.ddType = DropPartitionDDType) →
      s.GetCollectionByName ddOp.body.collectionName = some collInfo →
      ((Core.reSendDdMsg s).1 = ⟨some "true", s.ddOperation, s.collections⟩ ∧
       (Core.reSendDdMsg s).2.2 = .ok () ∧
       DdEvent.publish ddOp.ddType ddOp.body collInfo.physicalChannelNames
         ∈ (Core.reSendDdMsg s).2.1)) := by
  refine ⟨?_, ?_, ?_, ?_⟩
  · intro h
    simp [Core.reSendDdMsg, h]
  · intro h
    simp [Core.reSendDdMsg, h]
  · intro hflag hop
    simp [Core.reSendDdMsg, hflag, hop]
  · intro ddOp collInfo hflag hop htype hcoll
    rcases htype with h | h | h | h <;>
      simp [Core.reSendDdMsg, hflag, hop, h, Core.replayDdCase, hcoll,
        Core.setDdMsgSendFlag, CreateCollectionDDType, DropCollectionDDType,
        CreatePartitionDDType, DropPartitionDDType]

/-- C3 witness: at the concrete state coreB (flag false, a stored
CreateCollection on coll1 that resolves), the replay publishes the message
on both physical channels of coll1, succeeds, and flips the flag. -/
theorem reSendDdMsg_replay_witness :
    coreB.ddMsgFlag = some "false" ∧
    coreB.ddOperation = some ddOpB ∧
    coreB.GetCollectionByName ddOpB.body.collectionName = some collB ∧
    ((Core.reSendDdMsg coreB).1 = ⟨some "true", coreB.ddOperation, coreB.collections⟩ ∧
     (Core.reSendDdMsg coreB).2.2 = .ok () ∧
     DdEvent.publish ddOpB.ddType ddOpB.body collB.physicalChannelNames
       ∈ (Core.reSendDdMsg coreB).2.1) :=
  ⟨rfl, rfl, by decide,
   (reSendDdMsg_replay coreB).2.2.2 ddOpB collB rfl rfl (Or.inl rfl) (by decide)⟩

end Rootcoord

/-- C4 (amended): RootCoord RPCs gate on health: when the state code is not
Healthy, Core.AllocTimestamp answers UnexpectedError with a reason naming
the state and does not consult the allocator (the answer is independent of
the allocator outcome).  IndexCoord RPCs, however, perform no health check:
the BuildIndex response is independent of the stored state code. -/
theorem rpc_health_gate_rootcoord_only (code : StateCode)
    (tso tso' : Except String Nat) (count count' : Nat)
    (s : Indexcoord.IndexCoordState) (req : Indexcoord.BuildIndexRequest)
    (h : code ≠ .Healthy) :
    Rootcoord.Core.AllocTimestamp code tso count
        = ⟨⟨.UnexpectedError, "state code = " ++ StateCode.name code⟩, 0, 0⟩ ∧
    Rootcoord.Core.AllocTimestamp code tso count
        = Rootcoord.Core.AllocTimestamp code tso' count' ∧
    (Indexcoord.IndexCoord.BuildIndex s req).2
        = (Indexcoord.IndexCoord.BuildIndex
            ⟨code, s.metaTable, s.nextBuildID, s.assignChan, s.nodeClients, s.nodeTasks⟩
            req).2 := by
  refine ⟨?_, ?_, ?_⟩
  · simp [Rootcoord.Core.AllocTimestamp, h]
  · simp [Rootcoord.Core.AllocTimestamp, h]
  · rcases hq : s.metaTable.HasSameReq req with ⟨b, bid⟩
    cases b <;> simp [Indexcoord.IndexCoord.BuildIndex, hq]

/-- C4 witness: with the Abnormal state code, AllocTimestamp refuses with
the state named in the reason whatever the allocator would have returned,
while IndexCoord BuildIndex answers the same response as it would when
Healthy. -/
theorem rpc_health_gate_rootcoord_only_witness :
    Rootcoord.Core.AllocTimestamp .Abnormal (.ok 77) 5
        = ⟨⟨.UnexpectedError, "state code = " ++ StateCode.name .Abnormal⟩, 0, 0⟩ ∧
    Rootcoord.Core.AllocTimestamp .Abnormal (.ok 77) 5
        = Rootcoord.Core.AllocTimestamp .Abnormal (.error "etcd unavailable") 9 ∧
    (Indexcoord.IndexCoord.BuildIndex Indexcoord.stateA Indexcoord.reqA).2
        = (Indexcoord.IndexCoord.BuildIndex
            ⟨.Abnormal, Indexcoord.stateA.metaTable, Indexcoord.stateA.nextBuildID,
             Indexcoord.stateA.assignChan, Indexcoord.stateA.nodeClients,
             Indexcoord.stateA.nodeTasks⟩
            Indexcoord.reqA).2 :=
  rpc_health_gate_rootcoord_only .Abnormal (.ok 77) (.error "etcd unavailable") 5 9
    Indexcoord.stateA Indexcoord.reqA (by decide)

namespace Datacoord

/-- C10: handling an UnRegister event for a data node absent from the node
store is a no-op: the node store, the channel buffer and the persisted
cluster state are unchanged and no watch request is issued. -/
theorem handleUnRegister_unknown_node_noop (c : ClusterState)
    (pol : List DataNodeInfo → DataNodeInfo → List DataNodeInfo) (n : DataNodeInfo)
    (h : c.nodes.GetNode n.version = none) :
    Cluster.handleUnRegister c pol n = (c, []) := by
  unfold Cluster.handleUnRegister
  rw [h]

/-- C10 witness: at the empty cluster, unregistering an unknown node does
nothing. -/
theorem handleUnRegister_unknown_node_noop_witness :
    clusterEmpty.nodes.GetNode nodeB.version = none ∧
    Cluster.handleUnRegister clusterEmpty trivialUnregisterPolicy nodeB
      = (clusterEmpty, []) :=
  ⟨rfl, handleUnRegister_unknown_node_noop clusterEmpty trivialUnregisterPolicy nodeB rfl⟩

end Datacoord

end Milvus
